import Mathlib

/-!
Shallow embedding of the AI-Trading-Bot pipeline core: the execution budget
guard (`src/pipeline/shutdown.py`), the market calendar store
(`src/pipeline/market_calendars.py`) and the source-fallback orchestrator
(`src/pipeline/data_sources.py`).

Wall-clock readings (Python `time.time()`) are modelled as rationals passed
explicitly to each time-dependent operation; Python exceptions are modelled
with `Except String`; Python dicts are modelled as insertion-ordered
association lists with first-key lookup, matching CPython dict semantics.
-/

namespace TradingBot

/-! ## Execution guard (`shutdown.py`) -/

/-- State of `ExecutionGuard`. `start_time` is `none` before `start()`;
`max_runtime_seconds` is the derived field set in `__init__`.
The `config` dict itself is elided: only the two limits read from it matter. -/
structure GuardState where
  start_time : Option ℚ
  tokens_used : Int
  daily_token_budget : Int
  execution_window_minutes : Int
  max_runtime_seconds : Int
deriving DecidableEq, Repr

/-- `ExecutionGuard.__init__`: reads the two limits from config and derives
`max_runtime_seconds = (execution_window_minutes - 5) * 60`. -/
def GuardState.init (budget window : Int) : GuardState :=
  { start_time := none
    tokens_used := 0
    daily_token_budget := budget
    execution_window_minutes := window
    max_runtime_seconds := (window - 5) * 60 }

/-- `ExecutionGuard.start`: `self.start_time = time.time()`. -/
def GuardState.start (g : GuardState) (now : ℚ) : GuardState :=
  { g with start_time := some now }

/-- `ExecutionGuard.check_time_remaining`. The guard `if not self.start_time`
uses Python truthiness: it fires when `start_time` is `None` and also when it
is the float `0.0`. -/
def GuardState.check_time_remaining (g : GuardState) (now : ℚ) : ℚ :=
  match g.start_time with
  | none => g.max_runtime_seconds
  | some t =>
    if t = 0 then g.max_runtime_seconds
    else g.max_runtime_seconds - (now - t)

/-- `ExecutionGuard.should_continue`: false when fewer than 30 seconds or
fewer than 1000 tokens remain. -/
def GuardState.should_continue (g : GuardState) (now : ℚ) : Bool :=
  let remaining_secs := g.check_time_remaining now
  let remaining_tokens := g.daily_token_budget - g.tokens_used
  if remaining_secs < 30 then false
  else if remaining_tokens < 1000 then false
  else true

/-- `ExecutionGuard.record_tokens`: increments `tokens_used`, then computes
`tokens_used / daily_token_budget * 100` for the log line; the division
raises `ZeroDivisionError` when the budget is zero (the increment has already
happened by then, so the updated state is returned either way). -/
def GuardState.record_tokens (g : GuardState) (count : Int) :
    GuardState × Except String ℚ :=
  let g1 := { g with tokens_used := g.tokens_used + count }
  if g1.daily_token_budget = 0 then (g1, .error "ZeroDivisionError")
  else (g1, .ok ((g1.tokens_used : ℚ) / (g1.daily_token_budget : ℚ) * 100))

/-- The record returned by `ExecutionGuard.get_status`. -/
structure GuardStatus where
  elapsed_seconds : ℚ
  remaining_seconds : ℚ
  tokens_used : Int
  remaining_tokens : Int
  budget_exhaustion_pct : ℚ
deriving DecidableEq, Repr

/-- `ExecutionGuard.get_status`: builds the status record; the
`budget_exhaustion_pct` division raises `ZeroDivisionError` when the budget is
zero. `elapsed` uses the same truthiness test as `check_time_remaining`. -/
def GuardState.get_status (g : GuardState) (now : ℚ) :
    Except String GuardStatus :=
  let elapsed : ℚ :=
    match g.start_time with
    | none => 0
    | some t => if t = 0 then 0 else now - t
  let remaining_secs := g.check_time_remaining now
  let remaining_tokens := g.daily_token_budget - g.tokens_used
  if g.daily_token_budget = 0 then .error "ZeroDivisionError"
  else
    .ok { elapsed_seconds := elapsed
          remaining_seconds := remaining_secs
          tokens_used := g.tokens_used
          remaining_tokens := remaining_tokens
          budget_exhaustion_pct :=
            (g.tokens_used : ℚ) / (g.daily_token_budget : ℚ) * 100 }

/-- The guard's public operations, as events acting on its state; query
operations carry the clock reading they would observe. -/
inductive GuardOp where
  | startOp (now : ℚ)
  | recordTokensOp (count : Int)
  | checkTimeRemainingOp (now : ℚ)
  | shouldContinueOp (now : ℚ)
  | forceShutdownOp (now : ℚ)
  | getStatusOp (now : ℚ)
deriving DecidableEq, Repr

/-- State transition of each guard operation: only `start()` and
`record_tokens()` mutate the guard (`force_shutdown`, `get_status`,
`should_continue`, `check_time_remaining` only read it). -/
def guardStep (g : GuardState) : GuardOp → GuardState
  | .startOp now => g.start now
  | .recordTokensOp count => (g.record_tokens count).1
  | .checkTimeRemainingOp _ => g
  | .shouldContinueOp _ => g
  | .forceShutdownOp _ => g
  | .getStatusOp _ => g

/-- Run a sequence of guard operations. -/
def guardRun (g : GuardState) (ops : List GuardOp) : GuardState :=
  ops.foldl guardStep g

/-! ## Calendar store (`market_calendars.py`) -/

/-- `Market` enum. -/
inductive Market where
  | ftse
  | nasdaq
deriving DecidableEq, Repr

/-- `Market.value`. -/
def Market.value : Market → String
  | .ftse => "ftse"
  | .nasdaq => "nasdaq"

/-- `EventType` enum. -/
inductive EventType where
  | earnings
  | dividend
  | split
  | ipo
  | conference
  | economic
  | merger
deriving DecidableEq, Repr

/-- `EventType.value`. -/
def EventType.value : EventType → String
  | .earnings => "earnings"
  | .dividend => "dividend"
  | .split => "stock_split"
  | .ipo => "ipo"
  | .conference => "conference"
  | .economic => "economic_indicator"
  | .merger => "merger_acquisition"

/-- `CalendarEvent`. The `timestamp` (creation time) and open `metadata`
bag are elided: no store operation below reads them. -/
structure CalendarEvent where
  ticker : String
  market : Market
  event_type : EventType
  date : String
  description : String
deriving DecidableEq, Repr

/-- First-match lookup in an insertion-ordered association list — the
semantics of `d[k]` / `k in d` on a CPython dict (whose keys are unique). -/
def dictGet {α : Type} (d : List (String × α)) (k : String) : Option α :=
  match d with
  | [] => none
  | (k1, v) :: rest => if k1 = k then some v else dictGet rest k

/-- `d[k] = v` on a CPython dict: replaces the value of an existing key in
place, or appends a new key at the end (insertion order). -/
def dictSet {α : Type} (d : List (String × α)) (k : String) (v : α) :
    List (String × α) :=
  match d with
  | [] => [(k, v)]
  | (k1, v1) :: rest =>
    if k1 = k then (k, v) :: rest else (k1, v1) :: dictSet rest k v

/-- Python `<` on lists of characters: strict lexicographic comparison by
code point, the comparison CPython applies to `str` values. -/
def pyCharListLt : List Char → List Char → Bool
  | _, [] => false
  | [], _ :: _ => true
  | a :: as, b :: bs =>
    if a < b then true else if b < a then false else pyCharListLt as bs

/-- Python `<=` on lists of characters. -/
def pyCharListLe : List Char → List Char → Bool
  | [], _ => true
  | _ :: _, [] => false
  | a :: as, b :: bs =>
    if a < b then true else if b < a then false else pyCharListLe as bs

/-- Python `a < b` on strings. -/
def pyStrLt (a b : String) : Bool := pyCharListLt a.data b.data

/-- Python `a <= b` on strings. -/
def pyStrLe (a b : String) : Bool := pyCharListLe a.data b.data

/-- State of `MarketCalendar`: the per-ticker event dict and the
`last_updated` stamp loaded from disk. The `data_dir` path is elided. -/
structure MarketCalendar where
  market : Market
  events : List (String × List CalendarEvent)
  last_updated : Option String
deriving DecidableEq, Repr

/-- `MarketCalendar.add_event`: ensures the ticker key exists, then appends
the event unless one with the same `(date, event_type)` is already in that
ticker's list (duplicates are silently dropped). -/
def MarketCalendar.add_event (cal : MarketCalendar) (event : CalendarEvent) :
    MarketCalendar :=
  let d0 :=
    if (dictGet cal.events event.ticker).isSome then cal.events
    else dictSet cal.events event.ticker []
  let cur := (dictGet d0 event.ticker).getD []
  let existing := cur.filter fun e =>
    e.date == event.date && e.event_type == event.event_type
  if existing.isEmpty then
    { cal with events := dictSet d0 event.ticker (cur ++ [event]) }
  else
    { cal with events := d0 }

/-- `MarketCalendar.add_events_bulk`: `add_event` per item, in order. -/
def MarketCalendar.add_events_bulk (cal : MarketCalendar)
    (events : List CalendarEvent) : MarketCalendar :=
  events.foldl MarketCalendar.add_event cal

/-- `MarketCalendar.get_events_by_ticker`. -/
def MarketCalendar.get_events_by_ticker (cal : MarketCalendar)
    (ticker : String) : List CalendarEvent :=
  (dictGet cal.events ticker).getD []

/-- `MarketCalendar.get_events_by_date_range`: per ticker, keep events with
`start_date <= e.date <= end_date` (Python string comparison, i.e.
lexicographic); tickers whose filtered list is empty are omitted. -/
def MarketCalendar.get_events_by_date_range (cal : MarketCalendar)
    (start_date end_date : String) : List (String × List CalendarEvent) :=
  (cal.events.map fun p =>
      (p.1, p.2.filter fun e =>
        pyStrLe start_date e.date && pyStrLe e.date end_date)
    ).filter fun p => !p.2.isEmpty

/-- `MarketCalendar.get_events_by_type`: same shape, filtering on the event
type; tickers with no match are omitted. -/
def MarketCalendar.get_events_by_type (cal : MarketCalendar)
    (ty : EventType) : List (String × List CalendarEvent) :=
  (cal.events.map fun p =>
      (p.1, p.2.filter fun e => e.event_type == ty)
    ).filter fun p => !p.2.isEmpty

/-- Python `min` over a nonempty list of strings (`None` for empty input,
mirroring the `if all_events else None` conditional around it). -/
def pyMinString : List String → Option String
  | [] => none
  | x :: xs => some (xs.foldl (fun a b => if pyStrLt b a then b else a) x)

/-- Python `max` over a nonempty list of strings. -/
def pyMaxString : List String → Option String
  | [] => none
  | x :: xs => some (xs.foldl (fun a b => if pyStrLt a b then b else a) x)

/-- The record returned by `MarketCalendar.get_summary`. -/
structure Summary where
  market : String
  total_tickers : Nat
  total_events : Nat
  event_types : List (String × Nat)
  date_range_first : Option String
  date_range_last : Option String
  last_updated : Option String
deriving DecidableEq, Repr

/-- The `all_events` list built by `get_summary`: concatenation of every
ticker's list, in dict iteration order. -/
def MarketCalendar.all_events (cal : MarketCalendar) : List CalendarEvent :=
  cal.events.foldl (fun acc p => acc ++ p.2) []

/-- One step of the histogram loop in `get_summary`:
`event_types[k] = event_types.get(k, 0) + 1`. -/
def histIncr (h : List (String × Nat)) (k : String) : List (String × Nat) :=
  dictSet h k ((dictGet h k).getD 0 + 1)

/-- `MarketCalendar.get_summary`. -/
def MarketCalendar.get_summary (cal : MarketCalendar) : Summary :=
  let all := cal.all_events
  let event_types := all.foldl (fun h e => histIncr h e.event_type.value) []
  { market := cal.market.value
    total_tickers := cal.events.length
    total_events := all.length
    event_types := event_types
    date_range_first := pyMinString (all.map CalendarEvent.date)
    date_range_last := pyMaxString (all.map CalendarEvent.date)
    last_updated := cal.last_updated }

/-- The document written by `_save_yaml` / `_save_json` (identical payload,
two encodings); `last_updated` is the `datetime.now()` stamp taken at save
time, passed in explicitly. -/
structure SaveDoc where
  market : String
  last_updated : String
  event_count : Nat
  tickers : List String
  events : List (String × List CalendarEvent)
deriving DecidableEq, Repr

/-- The payload both `_save_yaml` and `_save_json` serialize. -/
def MarketCalendar.saveDoc (cal : MarketCalendar) (now : String) : SaveDoc :=
  { market := cal.market.value
    last_updated := now
    event_count := (cal.events.map fun p => p.2.length).sum
    tickers := cal.events.map Prod.fst
    events := cal.events }

/-- `MarketCalendar.save_calendar`: dispatches on the format string and
raises `ValueError` for anything other than `"yaml"` or `"json"`. -/
def MarketCalendar.save_calendar (cal : MarketCalendar) (format_type : String)
    (now : String) : Except String SaveDoc :=
  if format_type = "yaml" then .ok (cal.saveDoc now)
  else if format_type = "json" then .ok (cal.saveDoc now)
  else .error ("Unsupported format: " ++ format_type)

/-- The core store operations of `MarketCalendar`, as a single event type
(query operations carry the clock-derived strings they would observe). -/
inductive StoreOp where
  | addEventOp (e : CalendarEvent)
  | addEventsBulkOp (es : List CalendarEvent)
  | byTickerOp (ticker : String)
  | byDateRangeOp (start_date end_date : String)
  | byTypeOp (ty : EventType)
  | upcomingOp (today future_date : String)
  | summaryOp
  | saveOp (format_type : String) (now : String)
deriving DecidableEq, Repr

/-- What a store operation returns. -/
inductive StoreOut where
  | noneOut
  | eventsOut (es : List CalendarEvent)
  | mappingOut (m : List (String × List CalendarEvent))
  | summaryOut (s : Summary)
  | savedOut (doc : SaveDoc)
deriving DecidableEq, Repr

/-- Run one core store operation: the post-state (the Python object survives
an exception, so it is returned either way) together with the
result-or-exception. `get_upcoming_events` is the date-range query over
`[today, today + days_ahead]`. -/
def runStoreOp (cal : MarketCalendar) :
    StoreOp → MarketCalendar × Except String StoreOut
  | .addEventOp e => (cal.add_event e, .ok .noneOut)
  | .addEventsBulkOp es => (cal.add_events_bulk es, .ok .noneOut)
  | .byTickerOp t => (cal, .ok (.eventsOut (cal.get_events_by_ticker t)))
  | .byDateRangeOp s e =>
    (cal, .ok (.mappingOut (cal.get_events_by_date_range s e)))
  | .byTypeOp ty => (cal, .ok (.mappingOut (cal.get_events_by_type ty)))
  | .upcomingOp today future =>
    (cal, .ok (.mappingOut (cal.get_events_by_date_range today future)))
  | .summaryOp => (cal, .ok (.summaryOut cal.get_summary))
  | .saveOp fmt now =>
    (cal, (cal.save_calendar fmt now).map StoreOut.savedOut)

/-- The durable calendar file as seen by `_load_local_calendar`:
missing (`exists()` is false), present and parseable, or present but
unreadable/corrupt (`open` or `yaml.safe_load` raises). The parsed document
carries the `events` mapping and the optional `last_updated` stamp. -/
inductive FileState where
  | missing
  | unreadable
  | present (events : List (String × List CalendarEvent))
            (last_updated : Option String)
deriving DecidableEq, Repr

/-- `MarketCalendar.__init__` composed with `_load_local_calendar`: the
store starts empty (`events = {}`, `last_updated = None`); a present file is
deserialized into the store; a missing file is skipped by the `exists()`
guard; a file that exists but cannot be read or parsed raises out of the
constructor (nothing catches it). -/
def mkMarketCalendar (m : Market) (fs : FileState) :
    Except String MarketCalendar :=
  match fs with
  | .missing => .ok { market := m, events := [], last_updated := none }
  | .unreadable => .error "OSError"
  | .present events last_updated =>
    .ok { market := m, events := events, last_updated := last_updated }

/-! ## Source orchestrator (`data_sources.py`) -/

/-- One data-source adapter, abstracted over what its four methods would do
for the market and horizon at hand: each is a returned value or a raised
exception. -/
structure SourceModel where
  health_check : Except String Bool
  fetch_earnings_calendar : Except String (List CalendarEvent)
  fetch_dividend_calendar : Except String (List CalendarEvent)
  fetch_economic_calendar : Except String (List CalendarEvent)
deriving Repr

/-- The `result` dict of `fetch_all_calendars`: each key is absent until
assigned. -/
structure FetchResult where
  earnings : Option (List CalendarEvent)
  dividends : Option (List CalendarEvent)
  economic : Option (List CalendarEvent)
deriving DecidableEq, Repr

/-- The empty `result = {}` dict. -/
def FetchResult.empty : FetchResult :=
  { earnings := none, dividends := none, economic := none }

/-- Outcome of one loop iteration: `broke` ends the loop (the `break`),
`cont` moves to the next source (falling off the `if` or the `except`). -/
inductive StepOut where
  | broke (r : FetchResult)
  | cont (r : FetchResult)
deriving DecidableEq, Repr

/-- The body of the `for source in self.sources` loop in
`fetch_all_calendars`: an unhealthy source falls through without `break`; an
exception anywhere in the `try` block is caught and the loop continues.
Earnings and dividends are both fetched before either is stored, so a raise
in either leaves `result` unchanged; a raise in the economic fetch happens
after earnings/dividends were stored, so those survive into the next
iteration. -/
def fetchFromSource (r : FetchResult) (s : SourceModel) : StepOut :=
  match s.health_check with
  | .error _ => .cont r
  | .ok false => .cont r
  | .ok true =>
    match s.fetch_earnings_calendar with
    | .error _ => .cont r
    | .ok es =>
      match s.fetch_dividend_calendar with
      | .error _ => .cont r
      | .ok ds =>
        let r1 := { r with earnings := some es, dividends := some ds }
        match r1.economic with
        | some _ => .broke r1
        | none =>
          match s.fetch_economic_calendar with
          | .error _ => .cont r1
          | .ok ec => .broke { r1 with economic := some ec }

/-- The source loop of `fetch_all_calendars`. -/
def fetchLoop : List SourceModel → FetchResult → FetchResult
  | [], r => r
  | s :: rest, r =>
    match fetchFromSource r s with
    | .broke r1 => r1
    | .cont r1 => fetchLoop rest r1

/-- `CalendarFetcher.fetch_all_calendars` over an explicit priority-ordered
source list. -/
def fetch_all_calendars (sources : List SourceModel) : FetchResult :=
  fetchLoop sources FetchResult.empty

/-- Recognizer for the mutating `start()` operation. -/
def GuardOp.isStart : GuardOp → Bool
  | .startOp _ => true
  | _ => false

/-- The events stored for a given `(ticker, date, event_type)` dedup key. -/
def eventsWithKey (cal : MarketCalendar) (ticker date : String)
    (ty : EventType) : List CalendarEvent :=
  ((dictGet cal.events ticker).getD []).filter fun e =>
    e.date == date && e.event_type == ty

/-! ## Helper lemmas -/

theorem should_continue_false_iff (g : GuardState) (now : ℚ) :
    g.should_continue now = false ↔
      g.check_time_remaining now < 30 ∨
        g.daily_token_budget - g.tokens_used < 1000 := by
  simp only [GuardState.should_continue]
  split_ifs with h1 h2
  · simpa using Or.inl h1
  · simpa using Or.inr h2
  · simp [h1, h2]

theorem record_tokens_state (g : GuardState) (count : Int) :
    (g.record_tokens count).1 = { g with tokens_used := g.tokens_used + count } := by
  simp only [GuardState.record_tokens]
  split_ifs <;> rfl

theorem check_time_remaining_some (g : GuardState) (t now : ℚ)
    (h : g.start_time = some t) (ht : t ≠ 0) :
    g.check_time_remaining now = g.max_runtime_seconds - (now - t) := by
  unfold GuardState.check_time_remaining
  rw [h]
  exact if_neg ht

theorem check_time_remaining_none (g : GuardState) (now : ℚ)
    (h : g.start_time = none) :
    g.check_time_remaining now = g.max_runtime_seconds := by
  unfold GuardState.check_time_remaining
  rw [h]

theorem dictGet_set_self {α : Type} (d : List (String × α)) (k : String)
    (v : α) : dictGet (dictSet d k v) k = some v := by
  induction d with
  | nil => simp [dictSet, dictGet]
  | cons p rest ih =>
    by_cases h : p.1 = k
    · simp [dictSet, dictGet, h]
    · simp [dictSet, dictGet, h, ih]

theorem dictGet_set_ne {α : Type} (d : List (String × α)) (k k1 : String)
    (v : α) (h : k1 ≠ k) : dictGet (dictSet d k v) k1 = dictGet d k1 := by
  induction d with
  | nil => simp [dictSet, dictGet, Ne.symm h]
  | cons p rest ih =>
    by_cases hp : p.1 = k
    · subst hp
      simp [dictSet, dictGet, Ne.symm h]
    · simp [dictSet, dictGet, hp, ih]

/-- The matching filter used by `add_event` on the stored list. -/
def dupFilter (event : CalendarEvent) (l : List CalendarEvent) :
    List CalendarEvent :=
  l.filter fun e => e.date == event.date && e.event_type == event.event_type

/-- What `add_event` stores under the event's own ticker: the old list (or
`[]` for a fresh ticker) with the event appended unless a (date, event_type)
duplicate was already present. -/
theorem add_event_get_self (cal : MarketCalendar) (event : CalendarEvent) :
    dictGet (cal.add_event event).events event.ticker =
      some (let cur := (dictGet cal.events event.ticker).getD []
            if (dupFilter event cur).isEmpty then cur ++ [event] else cur) := by
  simp only [MarketCalendar.add_event]
  cases hget : dictGet cal.events event.ticker with
  | none => simp [hget, dictGet_set_self, dupFilter]
  | some cur =>
    simp only [hget, Option.isSome_some, if_true, Option.getD_some, dupFilter]
    split_ifs with h
    · simp [dictGet_set_self]
    · simp [hget]

/-- `add_event` leaves every other ticker's entry alone. -/
theorem add_event_get_ne (cal : MarketCalendar) (event : CalendarEvent)
    (t : String) (h : t ≠ event.ticker) :
    dictGet (cal.add_event event).events t = dictGet cal.events t := by
  simp only [MarketCalendar.add_event]
  split_ifs <;> simp [dictGet_set_ne _ _ _ _ h]

theorem eventsWithKey_eq (cal : MarketCalendar) (e : CalendarEvent) :
    eventsWithKey cal e.ticker e.date e.event_type =
      dupFilter e ((dictGet cal.events e.ticker).getD []) := rfl

theorem dupFilter_append (e : CalendarEvent) (l1 l2 : List CalendarEvent) :
    dupFilter e (l1 ++ l2) = dupFilter e l1 ++ dupFilter e l2 := by
  simp [dupFilter]

theorem dupFilter_single_self (e : CalendarEvent) : dupFilter e [e] = [e] := by
  simp [dupFilter]

theorem dupFilter_single_ne (e e1 : CalendarEvent)
    (h : ¬(e1.date = e.date ∧ e1.event_type = e.event_type)) :
    dupFilter e [e1] = [] := by
  have hb : (e1.date == e.date && e1.event_type == e.event_type) = false := by
    by_cases hd : e1.date = e.date
    · have hy : e1.event_type ≠ e.event_type := fun hy => h ⟨hd, hy⟩
      simp [hd, hy]
    · simp [hd]
  simp [dupFilter, hb]

theorem isEmpty_eq_false_of_ne_nil {α : Type} {l : List α} (h : l ≠ []) :
    l.isEmpty = false := by
  cases l with
  | nil => exact absurd rfl h
  | cons a l => rfl

theorem pyCharListLe_rfl : ∀ l : List Char, pyCharListLe l l = true
  | [] => rfl
  | a :: as => by
    simp [pyCharListLe, lt_irrefl, pyCharListLe_rfl as]

theorem pyCharListLe_eq_not_lt :
    ∀ a b : List Char, pyCharListLe a b = !pyCharListLt b a
  | [], [] => rfl
  | [], _ :: _ => rfl
  | _ :: _, [] => rfl
  | a :: as, b :: bs => by
    by_cases h1 : a < b
    · have h2 : ¬ b < a := lt_asymm h1
      simp [pyCharListLe, pyCharListLt, h1, h2]
    · by_cases h2 : b < a
      · simp [pyCharListLe, pyCharListLt, h1, h2]
      · simp [pyCharListLe, pyCharListLt, h1, h2,
          pyCharListLe_eq_not_lt as bs]

theorem pyCharListLe_trans :
    ∀ a b c : List Char, pyCharListLe a b = true → pyCharListLe b c = true →
      pyCharListLe a c = true
  | [], _, _, _, _ => rfl
  | _ :: _, [], _, h1, _ => by simp [pyCharListLe] at h1
  | _ :: _, _ :: _, [], _, h2 => by simp [pyCharListLe] at h2
  | a :: as, b :: bs, c :: cs, h1, h2 => by
    by_cases hab : a < b
    · by_cases hbc : b < c
      · simp [pyCharListLe, lt_trans hab hbc]
      · by_cases hcb : c < b
        · simp [pyCharListLe, hbc, hcb] at h2
        · have hbc2 : b = c := le_antisymm (not_lt.mp hcb) (not_lt.mp hbc)
          subst hbc2
          simp [pyCharListLe, hab]
    · by_cases hba : b < a
      · simp [pyCharListLe, hab, hba] at h1
      · have hab2 : a = b := le_antisymm (not_lt.mp hba) (not_lt.mp hab)
        subst hab2
        by_cases hac : a < c
        · simp [pyCharListLe, hac]
        · by_cases hca : c < a
          · simp [pyCharListLe, hac, hca] at h2
          · have h1r : pyCharListLe as bs = true := by
              simpa [pyCharListLe, lt_irrefl] using h1
            have h2r : pyCharListLe bs cs = true := by
              simpa [pyCharListLe, hac, hca] using h2
            simp [pyCharListLe, hac, hca,
              pyCharListLe_trans as bs cs h1r h2r]

theorem pyStrLe_rfl (a : String) : pyStrLe a a = true :=
  pyCharListLe_rfl a.data

theorem pyStrLe_eq_not_lt (a b : String) : pyStrLe a b = !pyStrLt b a :=
  pyCharListLe_eq_not_lt a.data b.data

theorem pyStrLe_trans {a b c : String} (h1 : pyStrLe a b = true)
    (h2 : pyStrLe b c = true) : pyStrLe a c = true :=
  pyCharListLe_trans a.data b.data c.data h1 h2

theorem pyStrLe_of_not_lt {a b : String} (h : pyStrLt b a = false) :
    pyStrLe a b = true := by
  rw [pyStrLe_eq_not_lt, h]
  rfl

theorem pyCharListLt_asymm :
    ∀ a b : List Char, pyCharListLt a b = true → pyCharListLt b a = false
  | _, [], h => by simp [pyCharListLt] at h
  | [], _ :: _, _ => rfl
  | a :: as, b :: bs, h => by
    by_cases hab : a < b
    · simp [pyCharListLt, lt_asymm hab, hab]
    · by_cases hba : b < a
      · simp [pyCharListLt, hab, hba] at h
      · have hr : pyCharListLt as bs = true := by
          simpa [pyCharListLt, hab, hba] using h
        simp [pyCharListLt, hab, hba, pyCharListLt_asymm as bs hr]

theorem pyStrLe_of_lt {a b : String} (h : pyStrLt a b = true) :
    pyStrLe a b = true := by
  rw [pyStrLe_eq_not_lt]
  show (!pyCharListLt b.data a.data) = true
  rw [pyCharListLt_asymm a.data b.data h]
  rfl

/-- `add_event` with an already-present `(date, event_type)` duplicate under
the same ticker is a no-op. -/
theorem add_event_dup (cal : MarketCalendar) (e : CalendarEvent)
    (h : eventsWithKey cal e.ticker e.date e.event_type ≠ []) :
    cal.add_event e = cal := by
  rw [eventsWithKey_eq] at h
  cases hget : dictGet cal.events e.ticker with
  | none =>
    rw [hget] at h
    simp [dupFilter] at h
  | some cur =>
    rw [hget] at h
    simp only [Option.getD_some] at h
    simp only [MarketCalendar.add_event, hget, Option.isSome_some, if_true,
      Option.getD_some]
    have hcond :
        (List.filter
            (fun x => x.date == e.date && x.event_type == e.event_type)
            cur).isEmpty = false :=
      isEmpty_eq_false_of_ne_nil h
    rw [hcond]
    simp

/-- `add_event` with no `(date, event_type)` duplicate under the ticker
appends the event to the ticker's list. -/
theorem add_event_fresh (cal : MarketCalendar) (e : CalendarEvent)
    (h : eventsWithKey cal e.ticker e.date e.event_type = []) :
    dictGet (cal.add_event e).events e.ticker =
      some (((dictGet cal.events e.ticker).getD []) ++ [e]) := by
  rw [eventsWithKey_eq] at h
  rw [add_event_get_self]
  simp [h]

/-! ## Claims -/

/-- C1: `should_continue()` is false exactly when the remaining time is below
30 seconds or the remaining tokens are below 1000, and true otherwise; it is
false once `tokens_used > daily_token_budget - 1000`; and for a guard
configured with `execution_window_minutes = 10` (so
`max_runtime_seconds = 300`) and a token budget that is not separately
exhausted, it is false exactly when the elapsed time exceeds 270 seconds
(hence true before that). Start times are constrained to be positive, as
`time.time()` readings are. -/
theorem C1_should_continue (g : GuardState) (now : ℚ) :
    (g.should_continue now = false ↔
      g.check_time_remaining now < 30 ∨
        g.daily_token_budget - g.tokens_used < 1000)
    ∧ (g.daily_token_budget - 1000 < g.tokens_used →
        g.should_continue now = false)
    ∧ (∀ budget tokens : Int, ∀ t now1 : ℚ, 0 < t →
        (1000 : Int) ≤ budget - tokens →
        ((((GuardState.init budget 10).start t).record_tokens tokens).1.should_continue
            now1 = false ↔ (270 : ℚ) < now1 - t)) := by
  refine ⟨should_continue_false_iff g now, ?_, ?_⟩
  · intro h
    exact (should_continue_false_iff g now).mpr (Or.inr (by omega))
  · intro budget tokens t now1 ht hb
    have hstate : (((GuardState.init budget 10).start t).record_tokens tokens).1 =
        { start_time := some t, tokens_used := tokens,
          daily_token_budget := budget, execution_window_minutes := 10,
          max_runtime_seconds := 300 } := by
      rw [record_tokens_state]
      simp [GuardState.init, GuardState.start]
    rw [hstate, should_continue_false_iff]
    rw [check_time_remaining_some _ t now1 rfl (ne_of_gt ht)]
    have h2 : ¬ ((budget : Int) - tokens < 1000) := by omega
    simp only [h2, or_false]
    push_cast
    constructor <;> intro h <;> linarith

/-- Witness for C1: a guard with window 10, budget 100000 and no tokens
spent, started at t = 1, reports `should_continue = false` at clock 272
(elapsed 271 > 270). -/
theorem C1_should_continue_witness :
    (((GuardState.init 100000 10).start 1).record_tokens 0).1.should_continue
      272 = false := by
  have h := (C1_should_continue (GuardState.init 100000 10) 0).2.2
    100000 0 1 272 (by norm_num) (by norm_num)
  exact h.mpr (by norm_num)

/-- C4: `check_time_remaining()` returns `max_runtime_seconds - elapsed` once
started (start times being positive, as `time.time()` readings are),
where `max_runtime_seconds = (execution_window_minutes - 5) * 60`; it is not
clamped at zero, going negative past the deadline; and before `start()` it
returns the full `max_runtime_seconds`. -/
theorem C4_check_time_remaining (g : GuardState) (now : ℚ) :
    (∀ t : ℚ, g.start_time = some t → 0 < t →
      g.check_time_remaining now = g.max_runtime_seconds - (now - t))
    ∧ (g.start_time = none →
        g.check_time_remaining now = g.max_runtime_seconds)
    ∧ (∀ budget window : Int,
        (GuardState.init budget window).max_runtime_seconds = (window - 5) * 60
        ∧ (GuardState.init budget window).check_time_remaining now =
            ((window - 5) * 60 : Int))
    ∧ (∀ t : ℚ, g.start_time = some t → 0 < t →
        (g.max_runtime_seconds : ℚ) < now - t →
        g.check_time_remaining now < 0) := by
  refine ⟨?_, ?_, ?_, ?_⟩
  · intro t ht htpos
    exact check_time_remaining_some g t now ht (ne_of_gt htpos)
  · intro h
    exact check_time_remaining_none g now h
  · intro budget window
    exact ⟨rfl, check_time_remaining_none _ now rfl⟩
  · intro t ht htpos hover
    rw [check_time_remaining_some g t now ht (ne_of_gt htpos)]
    linarith

/-- Witness for C4: a guard with window 10, started at t = 2, polled at
clock 302 (elapsed 300), reports 0 seconds remaining via the formula
`300 - (302 - 2)`. -/
theorem C4_check_time_remaining_witness :
    ((GuardState.init 100000 10).start 2).check_time_remaining 302 =
      (((GuardState.init 100000 10).start 2).max_runtime_seconds : ℚ) -
        (302 - 2) :=
  (C4_check_time_remaining ((GuardState.init 100000 10).start 2) 302).1
    2 rfl (by norm_num)

/-- C5 counterexample: the claim says that once set, `start_time` never
changes whatever further operations are performed — but a second `start()`
call overwrites it (`self.start_time = time.time()` unconditionally): after
`start` at clock 1 and again at clock 2 the recorded start time differs from
what it was after the first `start`. -/
theorem C5_counterexample :
    (guardRun (GuardState.init 100000 10)
        [GuardOp.startOp 1, GuardOp.startOp 2]).start_time ≠
      (guardRun (GuardState.init 100000 10) [GuardOp.startOp 1]).start_time := by
  decide

/-- C5 amended: `start_time` is changed only by `start()` calls — any
sequence of operations containing no `start()` leaves it untouched, and each
`start()` call resets it to that call's clock reading. -/
theorem C5_start_time_updates :
    (∀ (g : GuardState) (ops : List GuardOp),
      (∀ op ∈ ops, op.isStart = false) →
      (guardRun g ops).start_time = g.start_time)
    ∧ (∀ (g : GuardState) (t : ℚ),
        (guardStep g (GuardOp.startOp t)).start_time = some t) := by
  constructor
  · intro g ops
    induction ops generalizing g with
    | nil => intro _; rfl
    | cons op rest ih =>
      intro h
      have hop : op.isStart = false := h op (List.mem_cons_self op rest)
      have hrest : ∀ o ∈ rest, o.isStart = false :=
        fun o ho => h o (List.mem_cons_of_mem op ho)
      have hstep : (guardStep g op).start_time = g.start_time := by
        cases op with
        | startOp t => simp [GuardOp.isStart] at hop
        | recordTokensOp c => rw [guardStep, record_tokens_state]
        | checkTimeRemainingOp n => rfl
        | shouldContinueOp n => rfl
        | forceShutdownOp n => rfl
        | getStatusOp n => rfl
      calc (guardRun g (op :: rest)).start_time
          = (guardRun (guardStep g op) rest).start_time := rfl
        _ = (guardStep g op).start_time := ih _ hrest
        _ = g.start_time := hstep
  · intro g t
    rfl

/-- Witness for C5's amended theorem: recording tokens and querying status
leave `start_time` unchanged. -/
theorem C5_start_time_updates_witness :
    (guardRun ((GuardState.init 100000 10).start 1)
        [GuardOp.recordTokensOp 7, GuardOp.getStatusOp 3]).start_time =
      ((GuardState.init 100000 10).start 1).start_time :=
  C5_start_time_updates.1 _ _ (by decide)

/-- C10: `record_tokens()` and `get_status()` divide by
`daily_token_budget` with no zero guard: with a nonzero configured budget
both are total (no exception), while a guard configured with budget 0 raises
`ZeroDivisionError` on the first call of either. -/
theorem C10_budget_division (g : GuardState) (count : Int) (now : ℚ) :
    (g.daily_token_budget ≠ 0 →
      (g.record_tokens count).2.isOk = true ∧ (g.get_status now).isOk = true)
    ∧ (g.daily_token_budget = 0 →
        (g.record_tokens count).2 = .error "ZeroDivisionError"
        ∧ g.get_status now = .error "ZeroDivisionError") := by
  constructor
  · intro h
    constructor
    · simp only [GuardState.record_tokens]
      rw [if_neg h]
      rfl
    · simp only [GuardState.get_status]
      rw [if_neg h]
      rfl
  · intro h
    constructor
    · simp only [GuardState.record_tokens]
      rw [if_pos h]
    · simp only [GuardState.get_status]
      rw [if_pos h]

/-- Witness for C10: with budget 100000 both operations succeed; with budget
0 `record_tokens` raises. -/
theorem C10_budget_division_witness :
    ((GuardState.init 100000 10).record_tokens 5).2.isOk = true
    ∧ ((GuardState.init 0 10).record_tokens 5).2 =
        .error "ZeroDivisionError" :=
  ⟨((C10_budget_division (GuardState.init 100000 10) 5 0).1 (by decide)).1,
   ((C10_budget_division (GuardState.init 0 10) 5 0).2 rfl).1⟩

/-- C2: adding two events with equal `(ticker, date, event_type)` — via two
`add_event` calls or via `add_events_bulk` (which is exactly the two calls in
order) — stores exactly the first one under that key (first-write-wins, the
duplicate silently dropped with no overwrite), while two events differing in
any key component are both kept. Stated for a calendar not already holding
either key. -/
theorem C2_dedup (cal : MarketCalendar) (e1 e2 : CalendarEvent)
    (h1 : eventsWithKey cal e1.ticker e1.date e1.event_type = [])
    (h2 : eventsWithKey cal e2.ticker e2.date e2.event_type = []) :
    cal.add_events_bulk [e1, e2] = (cal.add_event e1).add_event e2
    ∧ (e1.ticker = e2.ticker ∧ e1.date = e2.date ∧
        e1.event_type = e2.event_type →
        eventsWithKey ((cal.add_event e1).add_event e2) e1.ticker e1.date
          e1.event_type = [e1])
    ∧ (¬(e1.ticker = e2.ticker ∧ e1.date = e2.date ∧
          e1.event_type = e2.event_type) →
        eventsWithKey ((cal.add_event e1).add_event e2) e1.ticker e1.date
          e1.event_type = [e1]
        ∧ eventsWithKey ((cal.add_event e1).add_event e2) e2.ticker e2.date
          e2.event_type = [e2]) := by
  have hk1 : dupFilter e1 ((dictGet cal.events e1.ticker).getD []) = [] := h1
  have hk2 : dupFilter e2 ((dictGet cal.events e2.ticker).getD []) = [] := h2
  have hfresh1 : dictGet (cal.add_event e1).events e1.ticker =
      some (((dictGet cal.events e1.ticker).getD []) ++ [e1]) :=
    add_event_fresh cal e1 h1
  refine ⟨rfl, ?_, ?_⟩
  · rintro ⟨ht, hd, hy⟩
    have hpred : dupFilter e2 = dupFilter e1 := by
      funext l
      simp [dupFilter, ← hd, ← hy]
    have hdup : eventsWithKey (cal.add_event e1) e2.ticker e2.date
        e2.event_type ≠ [] := by
      rw [eventsWithKey_eq, ← ht, hfresh1, Option.getD_some, hpred,
        dupFilter_append, hk1, dupFilter_single_self]
      simp
    rw [add_event_dup _ _ hdup, eventsWithKey_eq, hfresh1, Option.getD_some,
      dupFilter_append, hk1, dupFilter_single_self]
    simp
  · intro hne
    by_cases ht : e1.ticker = e2.ticker
    · have hkey : ¬(e2.date = e1.date ∧ e2.event_type = e1.event_type) := by
        rintro ⟨hd, hy⟩
        exact hne ⟨ht, hd.symm, hy.symm⟩
      have hm21 : dupFilter e2 [e1] = [] :=
        dupFilter_single_ne e2 e1 (fun hc => hkey ⟨hc.1.symm, hc.2.symm⟩)
      have hm12 : dupFilter e1 [e2] = [] := dupFilter_single_ne e1 e2 hkey
      have hk2c : dupFilter e2 ((dictGet cal.events e1.ticker).getD []) = [] := by
        rw [ht]
        exact hk2
      have hnodup : eventsWithKey (cal.add_event e1) e2.ticker e2.date
          e2.event_type = [] := by
        rw [eventsWithKey_eq, ← ht, hfresh1, Option.getD_some,
          dupFilter_append, hk2c, hm21]
        simp
      have hfresh2 : dictGet ((cal.add_event e1).add_event e2).events
          e1.ticker =
          some ((((dictGet cal.events e1.ticker).getD []) ++ [e1]) ++ [e2]) := by
        have h5 := add_event_fresh (cal.add_event e1) e2 hnodup
        rw [← ht] at h5
        rw [hfresh1, Option.getD_some] at h5
        exact h5
      constructor
      · rw [eventsWithKey_eq, hfresh2, Option.getD_some,
          dupFilter_append, dupFilter_append, hk1, dupFilter_single_self,
          hm12]
        simp
      · rw [eventsWithKey_eq, ← ht, hfresh2, Option.getD_some,
          dupFilter_append, dupFilter_append, hk2c, hm21,
          dupFilter_single_self]
        simp
    · have ht1 : e1.ticker ≠ e2.ticker := ht
      have hb : dictGet (cal.add_event e1).events e2.ticker =
          dictGet cal.events e2.ticker :=
        add_event_get_ne cal e1 e2.ticker (Ne.symm ht1)
      have hnodup : eventsWithKey (cal.add_event e1) e2.ticker e2.date
          e2.event_type = [] := by
        rw [eventsWithKey_eq, hb]
        exact hk2
      have hfresh2 : dictGet ((cal.add_event e1).add_event e2).events
          e2.ticker =
          some (((dictGet cal.events e2.ticker).getD []) ++ [e2]) := by
        have := add_event_fresh (cal.add_event e1) e2 hnodup
        rw [hb] at this
        exact this
      constructor
      · rw [eventsWithKey_eq, add_event_get_ne _ _ _ ht1, hfresh1,
          Option.getD_some, dupFilter_append, hk1, dupFilter_single_self]
        simp
      · rw [eventsWithKey_eq, hfresh2, Option.getD_some, dupFilter_append,
          hk2, dupFilter_single_self]
        simp

/-- Witness for C2: two earnings events with the same key on an empty
NASDAQ calendar leave exactly the first one stored. -/
theorem C2_dedup_witness :
    eventsWithKey
      (MarketCalendar.add_event
        (MarketCalendar.add_event
          { market := Market.nasdaq, events := [], last_updated := none }
          { ticker := "AAPL", market := Market.nasdaq,
            event_type := EventType.earnings, date := "2026-02-05",
            description := "Q1 earnings" })
        { ticker := "AAPL", market := Market.nasdaq,
          event_type := EventType.earnings, date := "2026-02-05",
          description := "Q1 earnings duplicate" })
      "AAPL" "2026-02-05" EventType.earnings =
      [{ ticker := "AAPL", market := Market.nasdaq,
         event_type := EventType.earnings, date := "2026-02-05",
         description := "Q1 earnings" }] :=
  (C2_dedup { market := Market.nasdaq, events := [], last_updated := none }
      { ticker := "AAPL", market := Market.nasdaq,
        event_type := EventType.earnings, date := "2026-02-05",
        description := "Q1 earnings" }
      { ticker := "AAPL", market := Market.nasdaq,
        event_type := EventType.earnings, date := "2026-02-05",
        description := "Q1 earnings duplicate" }
      rfl rfl).2.1 ⟨rfl, rfl, rfl⟩

/-- C6: the date-range query keeps, per ticker, exactly the events with
`start ≤ date ≤ end` under lexicographic string comparison (so an event dated
exactly `start` or exactly `end` is included, the bounds being inclusive),
and the returned mapping has an entry for a ticker exactly when that
ticker has at least one event in range. -/
theorem C6_date_range (cal : MarketCalendar) (s e : String) :
    (∀ (t : String) (es : List CalendarEvent) (ev : CalendarEvent),
      (t, es) ∈ cal.events → ev ∈ es → pyStrLe s e = true →
      (ev.date = s ∨ ev.date = e) →
      ∃ l, (t, l) ∈ cal.get_events_by_date_range s e ∧ ev ∈ l)
    ∧ (∀ (t : String) (l : List CalendarEvent),
        (t, l) ∈ cal.get_events_by_date_range s e ↔
          ∃ es, (t, es) ∈ cal.events ∧
            l = es.filter (fun ev => pyStrLe s ev.date && pyStrLe ev.date e) ∧
            l ≠ []) := by
  have hchar : ∀ (t : String) (l : List CalendarEvent),
      (t, l) ∈ cal.get_events_by_date_range s e ↔
        ∃ es, (t, es) ∈ cal.events ∧
          l = es.filter (fun ev => pyStrLe s ev.date && pyStrLe ev.date e) ∧
          l ≠ [] := by
    intro t l
    constructor
    · intro hmem
      rcases List.mem_filter.mp hmem with ⟨hmap, hne⟩
      rcases List.mem_map.mp hmap with ⟨p, hp, hfp⟩
      rcases p with ⟨t1, es⟩
      have hfp1 : t1 = t := congrArg Prod.fst hfp
      have hfp2 :
          es.filter (fun ev => pyStrLe s ev.date && pyStrLe ev.date e) = l :=
        congrArg Prod.snd hfp
      subst hfp1
      refine ⟨es, hp, hfp2.symm, ?_⟩
      intro hl
      rw [hl] at hne
      simp at hne
    · rintro ⟨es, hp, hl, hne⟩
      apply List.mem_filter.mpr
      refine ⟨List.mem_map.mpr ⟨(t, es), hp, by rw [← hl]⟩, ?_⟩
      simp [isEmpty_eq_false_of_ne_nil hne]
  refine ⟨?_, hchar⟩
  intro t es ev hmem hev hse hdate
  have hcond : pyStrLe s ev.date = true ∧ pyStrLe ev.date e = true := by
    rcases hdate with h | h
    · rw [h]
      exact ⟨pyStrLe_rfl s, hse⟩
    · rw [h]
      exact ⟨hse, pyStrLe_rfl e⟩
  have hin : ev ∈ es.filter (fun ev => pyStrLe s ev.date && pyStrLe ev.date e) :=
    List.mem_filter.mpr ⟨hev, by simp [hcond.1, hcond.2]⟩
  refine ⟨es.filter (fun ev => pyStrLe s ev.date && pyStrLe ev.date e), ?_, hin⟩
  apply (hchar t _).mpr
  refine ⟨es, hmem, rfl, ?_⟩
  intro hnil
  rw [hnil] at hin
  exact absurd hin (List.not_mem_nil ev)

/-- Witness for C6: an event dated exactly at the range start appears in the
range query's result on a one-ticker store. -/
theorem C6_date_range_witness :
    ("AAPL",
      [{ ticker := "AAPL", market := Market.nasdaq,
         event_type := EventType.earnings, date := "2026-02-05",
         description := "Q1 earnings" }]) ∈
      (MarketCalendar.get_events_by_date_range
        { market := Market.nasdaq,
          events := [("AAPL",
            [{ ticker := "AAPL", market := Market.nasdaq,
               event_type := EventType.earnings, date := "2026-02-05",
               description := "Q1 earnings" }])],
          last_updated := none }
        "2026-02-05" "2026-02-10") :=
  ((C6_date_range
      { market := Market.nasdaq,
        events := [("AAPL",
          [{ ticker := "AAPL", market := Market.nasdaq,
             event_type := EventType.earnings, date := "2026-02-05",
             description := "Q1 earnings" }])],
        last_updated := none }
      "2026-02-05" "2026-02-10").2 "AAPL" _).mpr
    ⟨[{ ticker := "AAPL", market := Market.nasdaq,
        event_type := EventType.earnings, date := "2026-02-05",
        description := "Q1 earnings" }],
      List.mem_singleton.mpr rfl, by decide, by decide⟩

theorem foldl_pyMin_mem (x : String) (xs : List String) :
    xs.foldl (fun a b => if pyStrLt b a then b else a) x ∈ x :: xs ∧
      ∀ y ∈ x :: xs,
        pyStrLe (xs.foldl (fun a b => if pyStrLt b a then b else a) x) y =
          true := by
  induction xs generalizing x with
  | nil =>
    refine ⟨List.mem_singleton.mpr rfl, ?_⟩
    intro y hy
    rw [List.mem_singleton.mp hy]
    exact pyStrLe_rfl x
  | cons b xs ih =>
    simp only [List.foldl_cons]
    by_cases hbx : pyStrLt b x = true
    · rw [if_pos hbx]
      rcases ih b with ⟨hmem, hbound⟩
      constructor
      · rcases List.mem_cons.mp hmem with h | h
        · exact List.mem_cons_of_mem x (List.mem_cons.mpr (Or.inl h))
        · exact List.mem_cons_of_mem x (List.mem_cons_of_mem b h)
      · intro y hy
        rcases List.mem_cons.mp hy with rfl | hy2
        · exact pyStrLe_trans (hbound b (List.mem_cons_self b xs))
            (pyStrLe_of_lt hbx)
        · exact hbound y hy2
    · rw [if_neg hbx]
      rcases ih x with ⟨hmem, hbound⟩
      constructor
      · rcases List.mem_cons.mp hmem with h | h
        · exact List.mem_cons.mpr (Or.inl h)
        · exact List.mem_cons_of_mem x (List.mem_cons_of_mem b h)
      · intro y hy
        rcases List.mem_cons.mp hy with h | hy2
        · rw [h]
          exact hbound x (List.mem_cons_self x xs)
        · rcases List.mem_cons.mp hy2 with h | hy3
          · rw [h]
            exact pyStrLe_trans (hbound x (List.mem_cons_self x xs))
              (pyStrLe_of_not_lt (Bool.eq_false_iff.mpr hbx))
          · exact hbound y (List.mem_cons_of_mem x hy3)

theorem foldl_pyMax_mem (x : String) (xs : List String) :
    xs.foldl (fun a b => if pyStrLt a b then b else a) x ∈ x :: xs ∧
      ∀ y ∈ x :: xs,
        pyStrLe y (xs.foldl (fun a b => if pyStrLt a b then b else a) x) =
          true := by
  induction xs generalizing x with
  | nil =>
    refine ⟨List.mem_singleton.mpr rfl, ?_⟩
    intro y hy
    rw [List.mem_singleton.mp hy]
    exact pyStrLe_rfl x
  | cons b xs ih =>
    simp only [List.foldl_cons]
    by_cases hxb : pyStrLt x b = true
    · rw [if_pos hxb]
      rcases ih b with ⟨hmem, hbound⟩
      constructor
      · rcases List.mem_cons.mp hmem with h | h
        · exact List.mem_cons_of_mem x (List.mem_cons.mpr (Or.inl h))
        · exact List.mem_cons_of_mem x (List.mem_cons_of_mem b h)
      · intro y hy
        rcases List.mem_cons.mp hy with rfl | hy2
        · exact pyStrLe_trans (pyStrLe_of_lt hxb)
            (hbound b (List.mem_cons_self b xs))
        · exact hbound y hy2
    · rw [if_neg hxb]
      rcases ih x with ⟨hmem, hbound⟩
      constructor
      · rcases List.mem_cons.mp hmem with h | h
        · exact List.mem_cons.mpr (Or.inl h)
        · exact List.mem_cons_of_mem x (List.mem_cons_of_mem b h)
      · intro y hy
        rcases List.mem_cons.mp hy with h | hy2
        · rw [h]
          exact hbound x (List.mem_cons_self x xs)
        · rcases List.mem_cons.mp hy2 with h | hy3
          · rw [h]
            exact pyStrLe_trans
              (pyStrLe_of_not_lt (Bool.eq_false_iff.mpr hxb))
              (hbound x (List.mem_cons_self x xs))
          · exact hbound y (List.mem_cons_of_mem x hy3)

theorem pyMinString_none_iff (l : List String) :
    pyMinString l = none ↔ l = [] := by
  cases l <;> simp [pyMinString]

theorem pyMinString_some (l : List String) (d : String)
    (h : pyMinString l = some d) :
    d ∈ l ∧ ∀ y ∈ l, pyStrLe d y = true := by
  cases l with
  | nil => simp [pyMinString] at h
  | cons x xs =>
    simp only [pyMinString, Option.some.injEq] at h
    subst h
    exact foldl_pyMin_mem x xs

theorem pyMaxString_none_iff (l : List String) :
    pyMaxString l = none ↔ l = [] := by
  cases l <;> simp [pyMaxString]

theorem pyMaxString_some (l : List String) (d : String)
    (h : pyMaxString l = some d) :
    d ∈ l ∧ ∀ y ∈ l, pyStrLe y d = true := by
  cases l with
  | nil => simp [pyMaxString] at h
  | cons x xs =>
    simp only [pyMaxString, Option.some.injEq] at h
    subst h
    exact foldl_pyMax_mem x xs

theorem histIncr_sum (h : List (String × Nat)) (k : String) :
    ((histIncr h k).map Prod.snd).sum = (h.map Prod.snd).sum + 1 := by
  induction h with
  | nil => simp [histIncr, dictSet, dictGet]
  | cons p rest ih =>
    by_cases hp : p.1 = k
    · simp [histIncr, dictSet, dictGet, hp]
      omega
    · simp only [histIncr, dictSet, dictGet, hp, if_false, List.map_cons,
        List.sum_cons] at ih ⊢
      omega

theorem hist_fold_sum (l : List CalendarEvent) :
    ∀ h : List (String × Nat),
      (((l.foldl (fun h e => histIncr h e.event_type.value) h).map
          Prod.snd).sum) = (h.map Prod.snd).sum + l.length := by
  induction l with
  | nil =>
    intro h
    simp
  | cons e rest ih =>
    intro h
    simp only [List.foldl_cons, List.length_cons]
    rw [ih, histIncr_sum]
    omega

theorem foldl_append_length {α : Type} (l : List (String × List α)) :
    ∀ acc : List α,
      (l.foldl (fun acc p => acc ++ p.2) acc).length =
        acc.length + (l.map fun p => p.2.length).sum := by
  induction l with
  | nil =>
    intro acc
    simp
  | cons p rest ih =>
    intro acc
    simp only [List.foldl_cons, List.map_cons, List.sum_cons]
    rw [ih]
    simp [List.length_append]
    omega

/-- C7: the summary record is internally consistent: the event-type
histogram's counts sum to `total_events`, which equals the number of stored
events summed over all ticker lists; `total_tickers` is the number of ticker
keys; and the date range endpoints are the lexicographic min/max event date,
or `None` exactly when no events are stored. -/
theorem C7_summary (cal : MarketCalendar) :
    ((cal.get_summary).event_types.map Prod.snd).sum =
        (cal.get_summary).total_events
    ∧ (cal.get_summary).total_events =
        (cal.events.map fun p => p.2.length).sum
    ∧ (cal.get_summary).total_tickers = cal.events.length
    ∧ ((cal.get_summary).date_range_first = none ↔ cal.all_events = [])
    ∧ (∀ d, (cal.get_summary).date_range_first = some d →
        d ∈ cal.all_events.map CalendarEvent.date ∧
          ∀ y ∈ cal.all_events.map CalendarEvent.date, pyStrLe d y = true)
    ∧ ((cal.get_summary).date_range_last = none ↔ cal.all_events = [])
    ∧ (∀ d, (cal.get_summary).date_range_last = some d →
        d ∈ cal.all_events.map CalendarEvent.date ∧
          ∀ y ∈ cal.all_events.map CalendarEvent.date, pyStrLe y d = true) := by
  refine ⟨?_, ?_, rfl, ?_, ?_, ?_, ?_⟩
  · simp only [MarketCalendar.get_summary]
    simpa using hist_fold_sum cal.all_events []
  · simp only [MarketCalendar.get_summary, MarketCalendar.all_events]
    simpa using foldl_append_length cal.events []
  · simp only [MarketCalendar.get_summary]
    rw [pyMinString_none_iff]
    constructor
    · intro h
      exact List.map_eq_nil_iff.mp h
    · intro h
      rw [h]
      rfl
  · intro d hd
    simp only [MarketCalendar.get_summary] at hd
    exact pyMinString_some _ d hd
  · simp only [MarketCalendar.get_summary]
    rw [pyMaxString_none_iff]
    constructor
    · intro h
      exact List.map_eq_nil_iff.mp h
    · intro h
      rw [h]
      rfl
  · intro d hd
    simp only [MarketCalendar.get_summary] at hd
    exact pyMaxString_some _ d hd

/-- Witness for C7: on a one-event store the summary's first date is the
event's date, which is a member of the stored dates and a lower bound. -/
theorem C7_summary_witness :
    "2026-02-05" ∈
      (MarketCalendar.all_events
        { market := Market.nasdaq,
          events := [("AAPL",
            [{ ticker := "AAPL", market := Market.nasdaq,
               event_type := EventType.earnings, date := "2026-02-05",
               description := "Q1 earnings" }])],
          last_updated := none }).map CalendarEvent.date ∧
      ∀ y ∈ (MarketCalendar.all_events
        { market := Market.nasdaq,
          events := [("AAPL",
            [{ ticker := "AAPL", market := Market.nasdaq,
               event_type := EventType.earnings, date := "2026-02-05",
               description := "Q1 earnings" }])],
          last_updated := none }).map CalendarEvent.date,
        pyStrLe "2026-02-05" y = true :=
  (C7_summary
    { market := Market.nasdaq,
      events := [("AAPL",
        [{ ticker := "AAPL", market := Market.nasdaq,
           event_type := EventType.earnings, date := "2026-02-05",
           description := "Q1 earnings" }])],
      last_updated := none }).2.2.2.2.1 "2026-02-05" rfl

/-- C8: among the core store operations, `save_calendar` with an
unrecognized format identifier is the only one that raises a hard error
(a `ValueError`), and when it raises the in-memory store is unchanged;
every other operation (and `save_calendar` with `"yaml"` or `"json"`)
returns normally. -/
theorem C8_save_format (cal : MarketCalendar) (op : StoreOp) :
    ((∃ msg, (runStoreOp cal op).2 = .error msg) ↔
      ∃ fmt now, op = StoreOp.saveOp fmt now ∧ fmt ≠ "yaml" ∧ fmt ≠ "json")
    ∧ ((∃ msg, (runStoreOp cal op).2 = .error msg) →
        (runStoreOp cal op).1 = cal) := by
  cases op with
  | addEventOp e => simp [runStoreOp]
  | addEventsBulkOp es => simp [runStoreOp]
  | byTickerOp t => simp [runStoreOp]
  | byDateRangeOp s e => simp [runStoreOp]
  | byTypeOp ty => simp [runStoreOp]
  | upcomingOp today future => simp [runStoreOp]
  | summaryOp => simp [runStoreOp]
  | saveOp fmt now =>
    by_cases hy : fmt = "yaml"
    · simp [runStoreOp, MarketCalendar.save_calendar, hy, Except.map]
    · by_cases hj : fmt = "json"
      · simp [runStoreOp, MarketCalendar.save_calendar, hy, hj, Except.map]
      · simp [runStoreOp, MarketCalendar.save_calendar, hy, hj, Except.map]

/-- Witness for C8: saving with format `"xml"` raises and leaves the store
unchanged. -/
theorem C8_save_format_witness :
    (runStoreOp { market := Market.ftse, events := [], last_updated := none }
        (StoreOp.saveOp "xml" "2026-02-05T00:00:00")).1 =
      { market := Market.ftse, events := [], last_updated := none } :=
  (C8_save_format { market := Market.ftse, events := [], last_updated := none }
      (StoreOp.saveOp "xml" "2026-02-05T00:00:00")).2
    ⟨"Unsupported format: xml", rfl⟩

/-- C9 counterexample: the claim says a missing *or unreadable* durable
calendar file yields an empty store, not an error. The constructor's only
guard is `events_file.exists()`: a file that exists but cannot be opened or
parsed makes `open`/`yaml.safe_load` raise, and nothing in
`_load_local_calendar` or `__init__` catches it, so construction fails
instead of producing an empty store. -/
theorem C9_counterexample :
    mkMarketCalendar Market.nasdaq FileState.unreadable =
      Except.error "OSError" := rfl

/-- C9 amended: a missing calendar file yields an empty store (no events, no
`last_updated`) with no error, a present readable file is deserialized into
the store on construction, but a file that exists and is unreadable (or
unparseable) raises out of the constructor. -/
theorem C9_load_on_construct :
    (∀ m, mkMarketCalendar m FileState.missing =
        Except.ok { market := m, events := [], last_updated := none })
    ∧ (∀ m events lu, mkMarketCalendar m (FileState.present events lu) =
        Except.ok { market := m, events := events, last_updated := lu })
    ∧ (∀ m, mkMarketCalendar m FileState.unreadable =
        Except.error "OSError") :=
  ⟨fun _ => rfl, fun _ _ _ => rfl, fun _ => rfl⟩

/-- C3 counterexample: the claim says any exception raised during a source's
fetch makes that source unusable for the call. But `fetch_all_calendars`
stores earnings and dividends *before* fetching the economic calendar: a
single healthy source whose economic fetch raises still supplies the
earnings and dividends of the final result. -/
theorem C3_counterexample :
    fetch_all_calendars
      [{ health_check := Except.ok true,
         fetch_earnings_calendar := Except.ok
           [{ ticker := "AAPL", market := Market.nasdaq,
              event_type := EventType.earnings, date := "2026-02-05",
              description := "Q1 earnings" }],
         fetch_dividend_calendar := Except.ok [],
         fetch_economic_calendar := Except.error "APIError" }] =
      { earnings := some
          [{ ticker := "AAPL", market := Market.nasdaq,
             event_type := EventType.earnings, date := "2026-02-05",
             description := "Q1 earnings" }],
        dividends := some [],
        economic := none } := rfl

/-- C3 amended: the orchestrator iterates sources in priority order, skipping
unhealthy sources; an exception raised by `health_check`, the earnings fetch
or the dividends fetch leaves the result unchanged and moves on to the next
source; the first source that is healthy and completes earnings and
dividends supplies both (never split or merged across sources) and — once
economic data is present or its economic fetch succeeds — the loop stops, so
later sources are never reached. If only its economic fetch raises, its
earnings/dividends stay in the result but iteration continues (a later
usable source overwrites them). In the A(unhealthy)/B(healthy)/C scenario
only B's earnings and dividends are used and C is never consulted. -/
theorem C3_fallback (s : SourceModel) (rest : List SourceModel)
    (r : FetchResult) :
    (s.health_check = Except.ok false →
      fetchLoop (s :: rest) r = fetchLoop rest r)
    ∧ (∀ msg, s.health_check = Except.error msg →
        fetchLoop (s :: rest) r = fetchLoop rest r)
    ∧ (∀ msg, s.health_check = Except.ok true →
        s.fetch_earnings_calendar = Except.error msg →
        fetchLoop (s :: rest) r = fetchLoop rest r)
    ∧ (∀ es msg, s.health_check = Except.ok true →
        s.fetch_earnings_calendar = Except.ok es →
        s.fetch_dividend_calendar = Except.error msg →
        fetchLoop (s :: rest) r = fetchLoop rest r)
    ∧ (∀ es ds msg, s.health_check = Except.ok true →
        s.fetch_earnings_calendar = Except.ok es →
        s.fetch_dividend_calendar = Except.ok ds → r.economic = none →
        s.fetch_economic_calendar = Except.error msg →
        fetchLoop (s :: rest) r =
          fetchLoop rest
            { r with earnings := some es, dividends := some ds })
    ∧ (∀ es ds ec, s.health_check = Except.ok true →
        s.fetch_earnings_calendar = Except.ok es →
        s.fetch_dividend_calendar = Except.ok ds → r.economic = none →
        s.fetch_economic_calendar = Except.ok ec →
        fetchLoop (s :: rest) r =
          { earnings := some es, dividends := some ds,
            economic := some ec })
    ∧ (∀ es ds ec0, s.health_check = Except.ok true →
        s.fetch_earnings_calendar = Except.ok es →
        s.fetch_dividend_calendar = Except.ok ds → r.economic = some ec0 →
        fetchLoop (s :: rest) r =
          { earnings := some es, dividends := some ds,
            economic := some ec0 })
    ∧ (∀ (B C : SourceModel) es ds ec, s.health_check = Except.ok false →
        B.health_check = Except.ok true →
        B.fetch_earnings_calendar = Except.ok es →
        B.fetch_dividend_calendar = Except.ok ds →
        B.fetch_economic_calendar = Except.ok ec →
        fetch_all_calendars [s, B, C] =
          { earnings := some es, dividends := some ds,
            economic := some ec }
        ∧ fetch_all_calendars [s, B, C] = fetch_all_calendars [s, B]) := by
  refine ⟨?_, ?_, ?_, ?_, ?_, ?_, ?_, ?_⟩
  · intro hh
    simp [fetchLoop, fetchFromSource, hh]
  · intro msg hh
    simp [fetchLoop, fetchFromSource, hh]
  · intro msg hh he
    simp [fetchLoop, fetchFromSource, hh, he]
  · intro es msg hh he hd
    simp [fetchLoop, fetchFromSource, hh, he, hd]
  · intro es ds msg hh he hd hr hec
    simp [fetchLoop, fetchFromSource, hh, he, hd, hr, hec]
  · intro es ds ec hh he hd hr hec
    simp [fetchLoop, fetchFromSource, hh, he, hd, hr, hec]
  · intro es ds ec0 hh he hd hr
    simp [fetchLoop, fetchFromSource, hh, he, hd, hr]
  · intro B C es ds ec hh hB he hd hec
    have hstep : ∀ rest2 : List SourceModel,
        fetchLoop (s :: B :: rest2) FetchResult.empty =
          { earnings := some es, dividends := some ds,
            economic := some ec } := by
      intro rest2
      simp [fetchLoop, fetchFromSource, hh, hB, he, hd, hec,
        FetchResult.empty]
    exact ⟨hstep [C], by rw [fetch_all_calendars, fetch_all_calendars,
      hstep [C], hstep []]⟩

/-- Witness for C3's amended theorem: the concrete A/B/C scenario — A
unhealthy, B healthy with one earnings event, C healthy — uses exactly B's
data and gives the same result with or without C in the list. -/
theorem C3_fallback_witness :
    fetch_all_calendars
      [{ health_check := Except.ok false,
         fetch_earnings_calendar := Except.ok [],
         fetch_dividend_calendar := Except.ok [],
         fetch_economic_calendar := Except.ok [] },
       { health_check := Except.ok true,
         fetch_earnings_calendar := Except.ok
           [{ ticker := "HSBA", market := Market.ftse,
              event_type := EventType.earnings, date := "2026-02-10",
              description := "FY results" }],
         fetch_dividend_calendar := Except.ok [],
         fetch_economic_calendar := Except.ok [] },
       { health_check := Except.ok true,
         fetch_earnings_calendar := Except.ok
           [{ ticker := "AAPL", market := Market.nasdaq,
              event_type := EventType.earnings, date := "2026-02-05",
              description := "never fetched" }],
         fetch_dividend_calendar := Except.ok [],
         fetch_economic_calendar := Except.ok [] }] =
      { earnings := some
          [{ ticker := "HSBA", market := Market.ftse,
             event_type := EventType.earnings, date := "2026-02-10",
             description := "FY results" }],
        dividends := some [],
        economic := some [] } :=
  ((C3_fallback
      { health_check := Except.ok false,
        fetch_earnings_calendar := Except.ok [],
        fetch_dividend_calendar := Except.ok [],
        fetch_economic_calendar := Except.ok [] }
      [] FetchResult.empty).2.2.2.2.2.2.2
    { health_check := Except.ok true,
      fetch_earnings_calendar := Except.ok
        [{ ticker := "HSBA", market := Market.ftse,
           event_type := EventType.earnings, date := "2026-02-10",
           description := "FY results" }],
      fetch_dividend_calendar := Except.ok [],
      fetch_economic_calendar := Except.ok [] }
    { health_check := Except.ok true,
      fetch_earnings_calendar := Except.ok
        [{ ticker := "AAPL", market := Market.nasdaq,
           event_type := EventType.earnings, date := "2026-02-05",
           description := "never fetched" }],
      fetch_dividend_calendar := Except.ok [],
      fetch_economic_calendar := Except.ok [] }
    _ _ _ rfl rfl rfl rfl rfl).1

end TradingBot
